import Mathlib

/-!
Shallow embedding of the `rust_pack` library (`src/lib.rs`): the `PackType`
catalog, `PackType::try_from`, the backward-scanning template tokenizer inside
`pack`, and the pairing engine `pack_private`.

Modelling conventions:
* A Rust `&str` template is a `List Char`; `Vec<u8>` is a `List Nat`.
* `usize` arithmetic is `Nat` with explicit overflow behaviour where the Rust
  code can overflow: `str::parse::<usize>` on a 64-bit target rejects values
  of `2 ^ 64` or more, and the `t.len() - 1` subtraction in `pack` underflows
  when the stripped template is empty.  A run that panics (the underflow, or
  the resulting out-of-bounds index in release mode) is modelled as `none` in
  the `Option (Except PackError (List Nat))` result of `pack`; an orderly
  `Err` return is `some (Except.error e)`.
* A `PackableArg` (a boxed `dyn Packable`) is its `pack` method: a function
  from the descriptor to `Except PackError (List Nat)`.  The Rust method also
  consumes the boxed value; value payloads are irrelevant to the pairing
  engine, so the closure is the whole model.
-/

set_option autoImplicit false

namespace RustPack

/-- Rust `char::is_ascii_alphanumeric`: `A`-`Z`, `a`-`z` or `0`-`9` by code point. -/
def isAsciiAlphanumeric (c : Char) : Bool :=
  (65 ≤ c.toNat && c.toNat ≤ 90) || (97 ≤ c.toNat && c.toNat ≤ 122) ||
    (48 ≤ c.toNat && c.toNat ≤ 57)

/-- Rust `u8::is_ascii_alphabetic`: `A`-`Z` or `a`-`z` by code point. -/
def isAsciiAlphabetic (c : Char) : Bool :=
  (65 ≤ c.toNat && c.toNat ≤ 90) || (97 ≤ c.toNat && c.toNat ≤ 122)

/-- Rust `u8::is_ascii_digit`: `0`-`9` by code point. -/
def isAsciiDigit (c : Char) : Bool :=
  48 ≤ c.toNat && c.toNat ≤ 57

/-- The field-type catalog `PackType` from `src/lib.rs`, sixteen kinds each
carrying an optional `usize` modifier. -/
inductive PackType where
  | StringNullPadded (size : Option Nat)
  | AsciiNullPadded (size : Option Nat)
  | AscizNullPadded (size : Option Nat)
  | SignedChar (size : Option Nat)
  | UnsignedChar (size : Option Nat)
  | SignedShort (size : Option Nat)
  | UnsignedShort (size : Option Nat)
  | SignedLong (size : Option Nat)
  | UnsignedLong (size : Option Nat)
  | SignedQuad (size : Option Nat)
  | UnsignedQuad (size : Option Nat)
  | UnsignedShortBE (size : Option Nat)
  | UnsignedLongBE (size : Option Nat)
  | UnsignedShortLE (size : Option Nat)
  | UnsignedLongLE (size : Option Nat)
  | NullByte (size : Option Nat)
  deriving DecidableEq

/-- The error enum `PackError` from `src/lib.rs`. -/
inductive PackError where
  | LeftArgumentIsMissingForTemplate
  | RightArgumentIsMissingForTemplate
  | InvalidFormatLengthArgument
  | EmptyFormatCharacter
  | InvalidFormatCharacter
  | EmptyTemplate
  deriving DecidableEq

/-- Rust `str::parse::<usize>` on a 64-bit target: an optional leading `+`
sign followed by at least one ASCII digit, rejecting values that do not fit
in 64 bits.  (With only digits present, the intermediate-overflow check of
the Rust implementation is equivalent to the final-value bound.) -/
def parseUsize (s : List Char) : Option Nat :=
  let digits : List Char :=
    match s with
    | '+' :: rest => rest
    | _ => s
  if digits = [] then none
  else if digits.all (fun c => isAsciiDigit c) then
    let v : Nat := digits.foldl (fun acc c => acc * 10 + (c.toNat - 48)) 0
    if v < 18446744073709551616 then some v else none
  else none

/-- `PackType::try_from(&str)` from `src/lib.rs`.  Note the source order: the
empty check first, then the digit-suffix parse (whose failure is
`InvalidFormatLengthArgument`), and only then the match on the first
character.  The Rust `match` on the tag is rendered as an equality chain in
source order. -/
def PackType.try_from (value : List Char) : Except PackError PackType :=
  match value with
  | [] => Except.error PackError.EmptyFormatCharacter
  | c :: rest =>
    let sizeRes : Except PackError (Option Nat) :=
      match rest with
      | [] => Except.ok none
      | _ =>
        match parseUsize rest with
        | some s => Except.ok (some s)
        | none => Except.error PackError.InvalidFormatLengthArgument
    match sizeRes with
    | Except.error e => Except.error e
    | Except.ok size =>
      if c = 'a' then Except.ok (PackType.StringNullPadded size)
      else if c = 'A' then Except.ok (PackType.AsciiNullPadded size)
      else if c = 'Z' then Except.ok (PackType.AscizNullPadded size)
      else if c = 'c' then Except.ok (PackType.SignedChar size)
      else if c = 'C' then Except.ok (PackType.UnsignedChar size)
      else if c = 's' then Except.ok (PackType.SignedShort size)
      else if c = 'S' then Except.ok (PackType.UnsignedShort size)
      else if c = 'l' then Except.ok (PackType.SignedLong size)
      else if c = 'L' then Except.ok (PackType.UnsignedLong size)
      else if c = 'q' then Except.ok (PackType.SignedQuad size)
      else if c = 'Q' then Except.ok (PackType.UnsignedQuad size)
      else if c = 'n' then Except.ok (PackType.UnsignedShortBE size)
      else if c = 'N' then Except.ok (PackType.UnsignedLongBE size)
      else if c = 'v' then Except.ok (PackType.UnsignedShortLE size)
      else if c = 'V' then Except.ok (PackType.UnsignedLongLE size)
      else if c = 'x' then Except.ok (PackType.NullByte size)
      else Except.error PackError.InvalidFormatCharacter

/-- Whether a character is one of the sixteen tag letters accepted by
`PackType::try_from`, in the source's arm order. -/
def isRecognizedTag (c : Char) : Bool :=
  c = 'a' || c = 'A' || c = 'Z' || c = 'c' || c = 'C' || c = 's' || c = 'S' ||
    c = 'l' || c = 'L' || c = 'q' || c = 'Q' || c = 'n' || c = 'N' ||
    c = 'v' || c = 'V' || c = 'x'

/-- The Rust slice `&t[start..end]` of the stripped template. -/
def sliceChars (t : List Char) (start endIdx : Nat) : List Char :=
  (t.drop start).take (endIdx - start)

/-- One iteration body of the backward scan in `pack` (`src/lib.rs` lines
154-164): if `t[start]` is an ASCII letter, parse the token
`&t[start..end]` (propagating its error, as `?` does) and move `end` to
`start`, pushing the descriptor in front of those already found; otherwise
leave both unchanged.  `t.getD start ' '` models the in-bounds index
`t[start]` (every caller keeps `start < t.length`). -/
def tokenStep (t : List Char) (start endIdx : Nat) (acc : List PackType) :
    Except PackError (Nat × List PackType) :=
  if isAsciiAlphabetic (t.getD start ' ') then
    match PackType.try_from (sliceChars t start endIdx) with
    | Except.ok p => Except.ok (start, p :: acc)
    | Except.error e => Except.error e
  else Except.ok (endIdx, acc)

/-- The backward-scan loop of `pack`: run `tokenStep` at `start`,
`start - 1`, ..., `0`, breaking after position `0`.  Prepending each found
descriptor yields the same left-to-right order as the source's
push-then-reverse. -/
def tokenScan (t : List Char) : Nat → Nat → List PackType →
    Except PackError (List PackType)
  | 0, endIdx, acc =>
    match tokenStep t 0 endIdx acc with
    | Except.error e => Except.error e
    | Except.ok (_, acc2) => Except.ok acc2
  | s + 1, endIdx, acc =>
    match tokenStep t (s + 1) endIdx acc with
    | Except.error e => Except.error e
    | Except.ok (endIdx2, acc2) => tokenScan t s endIdx2 acc2

/-- The whole backward scan over a (non-empty) stripped template, with the
source's initial cursors `start = t.len() - 1` and `end = t.len()`. -/
def parseStripped (t : List Char) : Except PackError (List PackType) :=
  tokenScan t (t.length - 1) t.length []

/-- The template-parsing phase of `pack` (`src/lib.rs` lines 146-164): the
empty-template check, the alphanumeric strip, and the backward scan.
`none` models the panic when the original template is non-empty but the
stripped one is empty: there `t.len() - 1` underflows `usize` (a panic in
debug builds; in release it wraps and the subsequent `t[start]` indexes out
of bounds, also a panic). -/
def parseTemplate (template : List Char) :
    Option (Except PackError (List PackType)) :=
  if template.isEmpty then some (Except.error PackError.EmptyTemplate)
  else
    let t : List Char := template.filter isAsciiAlphanumeric
    if t.length = 0 then none
    else some (parseStripped t)

/-- A `PackableArg`: a boxed value together with its `Packable::pack`
method; the method is the only thing the pairing engine can observe. -/
structure PackableArg where
  inner : PackType → Except PackError (List Nat)

/-- `pack_private` from `src/lib.rs` lines 168-195: advance the descriptor
and argument iterators in lockstep; on a successful encode append its bytes,
on a failed encode return that error, and report the arity mismatches when
exactly one side is exhausted.  The source's buffer accumulation is rendered
as concatenation, which returns the identical `Result`. -/
def pack_private : List PackType → List PackableArg →
    Except PackError (List Nat)
  | p :: ps, a :: rest =>
    match a.inner p with
    | Except.ok data =>
      match pack_private ps rest with
      | Except.ok more => Except.ok (data ++ more)
      | Except.error e => Except.error e
    | Except.error e => Except.error e
  | [], _ :: _ => Except.error PackError.LeftArgumentIsMissingForTemplate
  | _ :: _, [] => Except.error PackError.RightArgumentIsMissingForTemplate
  | [], [] => Except.ok []

/-- `pack` from `src/lib.rs` lines 142-166: parse the template (possibly
panicking, see `parseTemplate`), then hand the descriptors and the arguments
to `pack_private`. -/
def pack (template : List Char) (args : List PackableArg) :
    Option (Except PackError (List Nat)) :=
  match parseTemplate template with
  | none => none
  | some (Except.error e) => some (Except.error e)
  | some (Except.ok descs) => some (pack_private descs args)

/-- Whether a pairing-engine result is a success. -/
def isOkE (r : Except PackError (List Nat)) : Bool :=
  match r with
  | Except.ok _ => true
  | Except.error _ => false

/-- Whether a `pack` run neither panicked nor returned an error. -/
def isOkOpt (r : Option (Except PackError (List Nat))) : Bool :=
  match r with
  | some v => isOkE v
  | none => false

/-- An argument whose encode always succeeds with the single byte `1`. -/
def argOk : PackableArg :=
  ⟨fun _ => Except.ok [1]⟩

/-- An argument whose encode always fails with `InvalidFormatCharacter`,
like the catch-all arm of the `Packable for u16` test implementation. -/
def argFail : PackableArg :=
  ⟨fun _ => Except.error PackError.InvalidFormatCharacter⟩

/-- The `Packable for u16` implementation of the `test_pack` test in
`src/lib.rs`: its `pack` ignores the numeric value and dispatches on the
descriptor alone, so one closure models all three test arguments. -/
def testArg : PackableArg :=
  ⟨fun pt =>
    match pt with
    | PackType.StringNullPadded (some 10) => Except.ok [0, 10]
    | PackType.UnsignedShort (some 3) => Except.ok [33, 3]
    | PackType.SignedShort none => Except.ok [44, 44]
    | _ => Except.error PackError.InvalidFormatCharacter⟩

end RustPack

namespace RustPack

/-- Unfolding `pack` when the template parses cleanly. -/
theorem pack_parse_ok (template : List Char) (args : List PackableArg)
    (descs : List PackType)
    (hp : parseTemplate template = some (Except.ok descs)) :
    pack template args = some (pack_private descs args) := by
  simp [pack, hp]

/-- A result with `isOkE` set carries an `ok` payload. -/
theorem exists_ok_of_isOkE (r : Except PackError (List Nat))
    (h : isOkE r = true) : ∃ b, r = Except.ok b := by
  cases r with
  | ok b => exact ⟨b, rfl⟩
  | error e => simp [isOkE] at h

/-- Filtering with the same predicate twice equals filtering once. -/
theorem filter_idem (p : Char → Bool) (l : List Char) :
    (l.filter p).filter p = l.filter p := by
  induction l with
  | nil => rfl
  | cons c cs ih =>
    by_cases hc : p c = true
    · simp [List.filter_cons, hc, ih]
    · simp [List.filter_cons, hc, ih]

/-- An ASCII digit is not an ASCII letter. -/
theorem not_alphabetic_of_digit (c : Char) (h : isAsciiDigit c = true) :
    isAsciiAlphabetic c = false := by
  simp [isAsciiDigit] at h
  simp [isAsciiAlphabetic]
  omega

/-- In-bounds `getD` returns a member of the list. -/
theorem getD_mem_of_lt (l : List Char) (i : Nat) (d : Char)
    (h : i < l.length) : l.getD i d ∈ l := by
  rw [List.getD_eq_getElem l d h]
  exact List.getElem_mem h

/-- C9: for every argument sequence, `pack` on the empty template fails with
`EmptyTemplate`. -/
theorem pack_empty_template (args : List PackableArg) :
    pack [] args = some (Except.error PackError.EmptyTemplate) := rfl

/-- C5: the template `"a[10]S3s"` parses to exactly
`[StringNullPadded (some 10), UnsignedShort (some 3), SignedShort none]`,
the left-to-right order of the surviving post-strip characters. -/
theorem parse_order_example :
    parseTemplate ['a', '[', '1', '0', ']', 'S', '3', 's'] =
      some (Except.ok [PackType.StringNullPadded (some 10),
        PackType.UnsignedShort (some 3), PackType.SignedShort none]) := rfl

/-- C3: `pack` on the non-empty all-punctuation template `"[]"` does not
return a `Result` at all: the stripped template is empty, `t.len() - 1`
underflows and the call panics (modelled as `none`). -/
theorem pack_symbols_only_panics : pack ['[', ']'] [] = none := rfl

end RustPack

namespace RustPack

/-- C2 counterexample: stripping is not meaning-free in general.  The
template `"!"` is non-empty but strips to the empty string, so `pack`
panics on it (`none`), while `pack` on its stripped form returns
`Err(EmptyTemplate)`. -/
theorem pack_strip_counterexample :
    pack ['!'] [] ≠ pack (List.filter isAsciiAlphanumeric ['!']) [] := by
  intro h
  exact Option.noConfusion h

/-- C2 (amended): for every template that is empty or keeps at least one
ASCII alphanumeric character, `pack` returns the same result as `pack` on
the template with every non-alphanumeric character removed. -/
theorem pack_strip_equiv (t : List Char) (args : List PackableArg)
    (h : t = [] ∨ t.filter isAsciiAlphanumeric ≠ []) :
    pack t args = pack (t.filter isAsciiAlphanumeric) args := by
  rcases h with rfl | h
  · rfl
  · have ht : t ≠ [] := by
      intro he
      rw [he] at h
      exact h rfl
    have hidem : (t.filter isAsciiAlphanumeric).filter isAsciiAlphanumeric
        = t.filter isAsciiAlphanumeric := filter_idem _ t
    have hte : t.isEmpty = false := by
      cases t with
      | nil => exact absurd rfl ht
      | cons c cs => rfl
    have hse : (t.filter isAsciiAlphanumeric).isEmpty = false := by
      cases hf : t.filter isAsciiAlphanumeric with
      | nil => exact absurd hf h
      | cons c cs => rfl
    unfold pack parseTemplate
    rw [hte, hse, hidem]

/-- C2 witness at a concrete input: `"a!"` and its stripped form `"a"`
pack identically. -/
theorem pack_strip_equiv_witness :
    pack ['a', '!'] [argOk] =
      pack (List.filter isAsciiAlphanumeric ['a', '!']) [argOk] :=
  pack_strip_equiv ['a', '!'] [argOk] (Or.inr (by decide))

/-- C4 counterexample: `'b'` is not a recognized tag, yet a digit suffix
that overflows `usize` (`2 ^ 64`) makes `try_from` fail with
`InvalidFormatLengthArgument`, not `InvalidFormatCharacter` — the suffix is
parsed before the tag is checked. -/
theorem try_from_overflow_counterexample :
    isRecognizedTag 'b' = false ∧
    PackType.try_from ('b' :: ['1', '8', '4', '4', '6', '7', '4', '4', '0',
        '7', '3', '7', '0', '9', '5', '5', '1', '6', '1', '6'])
      = Except.error PackError.InvalidFormatLengthArgument ∧
    PackType.try_from ('b' :: ['1', '8', '4', '4', '6', '7', '4', '4', '0',
        '7', '3', '7', '0', '9', '5', '5', '1', '6', '1', '6'])
      ≠ Except.error PackError.InvalidFormatCharacter := by
  refine ⟨rfl, rfl, fun h => ?_⟩
  rw [show PackType.try_from ('b' :: ['1', '8', '4', '4', '6', '7', '4', '4',
      '0', '7', '3', '7', '0', '9', '5', '5', '1', '6', '1', '6'])
      = Except.error PackError.InvalidFormatLengthArgument from rfl] at h
  injection h with h2
  exact PackError.noConfusion h2

/-- C4 (amended): a token whose first character is not one of the sixteen
recognized tags fails with `InvalidFormatCharacter` whenever its suffix is
empty or parses as a `usize`; a non-parsing suffix instead yields
`InvalidFormatLengthArgument` (see the counterexample). -/
theorem try_from_invalid_tag (c : Char) (rest : List Char)
    (hc : isRecognizedTag c = false)
    (hrest : rest = [] ∨ (parseUsize rest).isSome = true) :
    PackType.try_from (c :: rest) =
      Except.error PackError.InvalidFormatCharacter := by
  have hcs : ¬c = 'a' ∧ ¬c = 'A' ∧ ¬c = 'Z' ∧ ¬c = 'c' ∧ ¬c = 'C' ∧
      ¬c = 's' ∧ ¬c = 'S' ∧ ¬c = 'l' ∧ ¬c = 'L' ∧ ¬c = 'q' ∧ ¬c = 'Q' ∧
      ¬c = 'n' ∧ ¬c = 'N' ∧ ¬c = 'v' ∧ ¬c = 'V' ∧ ¬c = 'x' := by
    simpa [isRecognizedTag, and_assoc] using hc
  obtain ⟨h1, h2, h3, h4, h5, h6, h7, h8, h9, h10, h11, h12, h13, h14, h15,
    h16⟩ := hcs
  rcases hrest with rfl | hs
  · simp [PackType.try_from, h1, h2, h3, h4, h5, h6, h7, h8, h9, h10, h11,
      h12, h13, h14, h15, h16]
  · obtain ⟨s, hsome⟩ := Option.isSome_iff_exists.mp hs
    cases rest with
    | nil =>
      simp [PackType.try_from, h1, h2, h3, h4, h5, h6, h7, h8, h9, h10, h11,
        h12, h13, h14, h15, h16]
    | cons r rs =>
      simp [PackType.try_from, hsome, h1, h2, h3, h4, h5, h6, h7, h8, h9,
        h10, h11, h12, h13, h14, h15, h16]

/-- C4 witness at a concrete input: `"b3"` has an unrecognized tag and a
parseable suffix, so it fails with `InvalidFormatCharacter`. -/
theorem try_from_invalid_tag_witness :
    PackType.try_from ['b', '3'] =
      Except.error PackError.InvalidFormatCharacter :=
  try_from_invalid_tag 'b' ['3'] (by decide) (Or.inr (by decide))

/-- C7: the token `"S3"` parses to `UnsignedShort (some 3)`, the token
`"S"` to `UnsignedShort none`, and every token whose suffix after the first
character is non-empty and fails to parse as a `usize` yields
`InvalidFormatLengthArgument`. -/
theorem try_from_modifier_parsing :
    PackType.try_from ['S', '3'] =
        Except.ok (PackType.UnsignedShort (some 3)) ∧
    PackType.try_from ['S'] = Except.ok (PackType.UnsignedShort none) ∧
    ∀ (c : Char) (rest : List Char), rest ≠ [] → parseUsize rest = none →
      PackType.try_from (c :: rest) =
        Except.error PackError.InvalidFormatLengthArgument := by
  refine ⟨rfl, rfl, fun c rest hne hparse => ?_⟩
  cases rest with
  | nil => exact absurd rfl hne
  | cons r rs => simp [PackType.try_from, hparse]

/-- C7 witness at a concrete input: the suffix of `"Sx"` does not parse as
a `usize`. -/
theorem try_from_modifier_parsing_witness :
    PackType.try_from ['S', 'x'] =
      Except.error PackError.InvalidFormatLengthArgument :=
  try_from_modifier_parsing.2.2 'S' ['x'] (by decide) rfl

end RustPack

namespace RustPack

/-- Arity trichotomy of the pairing engine, assuming every zipped encode
succeeds. -/
theorem pack_private_arity_aux (descs : List PackType)
    (args : List PackableArg)
    (henc : ∀ pr ∈ List.zip args descs, isOkE (pr.1.inner pr.2) = true) :
    (descs.length = args.length → isOkE (pack_private descs args) = true) ∧
    (args.length < descs.length → pack_private descs args =
      Except.error PackError.RightArgumentIsMissingForTemplate) ∧
    (descs.length < args.length → pack_private descs args =
      Except.error PackError.LeftArgumentIsMissingForTemplate) := by
  induction descs generalizing args with
  | nil =>
    cases args with
    | nil =>
      refine ⟨fun _ => rfl, fun hl => absurd hl (by simp), fun hl => ?_⟩
      exact absurd hl (by simp)
    | cons a rest =>
      refine ⟨fun hl => ?_, fun hl => absurd hl (by simp), fun _ => rfl⟩
      simp at hl
  | cons p ps ih =>
    cases args with
    | nil =>
      refine ⟨fun hl => by simp at hl, fun _ => rfl, fun hl => ?_⟩
      simp at hl
    | cons a rest =>
      have hok : isOkE (a.inner p) = true := by
        apply henc (a, p)
        rw [List.zip_cons_cons]
        exact List.mem_cons_self _ _
      obtain ⟨b, hb⟩ := exists_ok_of_isOkE _ hok
      have henc2 : ∀ pr ∈ List.zip rest ps, isOkE (pr.1.inner pr.2) = true := by
        intro pr hpr
        apply henc pr
        rw [List.zip_cons_cons]
        exact List.mem_cons_of_mem _ hpr
      have ihr := ih rest henc2
      refine ⟨fun hl => ?_, fun hl => ?_, fun hl => ?_⟩
      · have hlen : ps.length = rest.length := by simpa using hl
        obtain ⟨more, hm⟩ := exists_ok_of_isOkE _ (ihr.1 hlen)
        simp [pack_private, hb, hm, isOkE]
      · have hlen : rest.length < ps.length := by simpa using hl
        simp [pack_private, hb, ihr.2.1 hlen]
      · have hlen : ps.length < rest.length := by simpa using hl
        simp [pack_private, hb, ihr.2.2 hlen]

/-- C1: when a template parses to `m` descriptors and is packed against `n`
arguments whose paired encodes all succeed, `pack` succeeds exactly when
`m = n`; it fails with `RightArgumentIsMissingForTemplate` when `m > n` and
with `LeftArgumentIsMissingForTemplate` when `n > m`. -/
theorem pack_arity (template : List Char) (args : List PackableArg)
    (descs : List PackType)
    (hp : parseTemplate template = some (Except.ok descs))
    (henc : ∀ pr ∈ List.zip args descs, isOkE (pr.1.inner pr.2) = true) :
    (descs.length = args.length → isOkOpt (pack template args) = true) ∧
    (args.length < descs.length → pack template args =
      some (Except.error PackError.RightArgumentIsMissingForTemplate)) ∧
    (descs.length < args.length → pack template args =
      some (Except.error PackError.LeftArgumentIsMissingForTemplate)) := by
  have hpp := pack_parse_ok template args descs hp
  have haux := pack_private_arity_aux descs args henc
  refine ⟨fun hl => ?_, fun hl => ?_, fun hl => ?_⟩
  · rw [hpp]
    simpa [isOkOpt] using haux.1 hl
  · rw [hpp, haux.2.1 hl]
  · rw [hpp, haux.2.2 hl]

/-- C1 witness at a concrete input: one descriptor, one always-succeeding
argument. -/
theorem pack_arity_witness : isOkOpt (pack ['S'] [argOk]) = true := by
  have h := pack_arity ['S'] [argOk] [PackType.UnsignedShort none] rfl
    (by
      intro pr hpr
      simp [List.zip] at hpr
      rw [hpr]
      rfl)
  exact h.1 rfl

/-- The pairing engine concatenates the per-pair encode results in order. -/
theorem pack_private_flatten (descs : List PackType)
    (args : List PackableArg) (bufs : List (List Nat))
    (henc : List.zipWith (fun a p => a.inner p) args descs =
      bufs.map Except.ok)
    (hlen : descs.length = args.length) :
    pack_private descs args = Except.ok bufs.flatten := by
  induction descs generalizing args bufs with
  | nil =>
    cases args with
    | nil =>
      have hb : bufs = [] := by
        cases bufs with
        | nil => rfl
        | cons b bs => simp [List.zipWith] at henc
      rw [hb]
      rfl
    | cons a rest => simp at hlen
  | cons p ps ih =>
    cases args with
    | nil => simp at hlen
    | cons a rest =>
      cases bufs with
      | nil => simp [List.zipWith] at henc
      | cons b bs =>
        rw [List.zipWith_cons_cons, List.map_cons] at henc
        obtain ⟨hb, hrest⟩ := List.cons.inj henc
        have hlen2 : ps.length = rest.length := by simpa using hlen
        have hrec := ih rest bs hrest hlen2
        simp [pack_private, hb, hrec]

/-- C6: the output of a successful `pack` is the ordered concatenation of
the per-pair encode results: whenever the template parses to descriptors
matching the arguments one-to-one and the zipped encodes return the buffers
`bufs`, `pack` returns exactly `bufs` flattened in order. -/
theorem pack_concat (template : List Char) (args : List PackableArg)
    (descs : List PackType) (bufs : List (List Nat))
    (hp : parseTemplate template = some (Except.ok descs))
    (hlen : descs.length = args.length)
    (henc : List.zipWith (fun a p => a.inner p) args descs =
      bufs.map Except.ok) :
    pack template args = some (Except.ok bufs.flatten) := by
  rw [pack_parse_ok template args descs hp,
    pack_private_flatten descs args bufs henc hlen]

/-- C6 witness: the end-to-end `test_pack` example — template `"a[10]S3s"`
against three test arguments encoding to `[0,10]`, `[33,3]` and `[44,44]`
yields exactly `[0,10,33,3,44,44]`. -/
theorem pack_concat_witness :
    pack ['a', '[', '1', '0', ']', 'S', '3', 's'] [testArg, testArg, testArg]
      = some (Except.ok [0, 10, 33, 3, 44, 44]) := by
  have h := pack_concat ['a', '[', '1', '0', ']', 'S', '3', 's']
    [testArg, testArg, testArg]
    [PackType.StringNullPadded (some 10), PackType.UnsignedShort (some 3),
      PackType.SignedShort none]
    [[0, 10], [33, 3], [44, 44]] rfl rfl rfl
  simpa using h

/-- C8: if the encodes of the first `k` pairs succeed and the `(k+1)`-st
fails with `e`, the pairing engine returns exactly `Err e`, independently of
every descriptor and argument after that position (so no later argument is
encoded and no partial buffer escapes). -/
theorem pack_private_short_circuit (ds1 : List PackType)
    (as1 : List PackableArg) (d : PackType) (a : PackableArg) (e : PackError)
    (hlen : ds1.length = as1.length)
    (hok : ∀ pr ∈ List.zip as1 ds1, isOkE (pr.1.inner pr.2) = true)
    (hfail : a.inner d = Except.error e) :
    ∀ (ds2 : List PackType) (as2 : List PackableArg),
      pack_private (ds1 ++ d :: ds2) (as1 ++ a :: as2) = Except.error e := by
  induction ds1 generalizing as1 with
  | nil =>
    cases as1 with
    | nil =>
      intro ds2 as2
      simp [pack_private, hfail]
    | cons a1 rest => simp at hlen
  | cons d1 ds1x ih =>
    cases as1 with
    | nil => simp at hlen
    | cons a1 as1x =>
      intro ds2 as2
      have hok1 : isOkE (a1.inner d1) = true := by
        apply hok (a1, d1)
        rw [List.zip_cons_cons]
        exact List.mem_cons_self _ _
      obtain ⟨b, hb⟩ := exists_ok_of_isOkE _ hok1
      have hlen2 : ds1x.length = as1x.length := by simpa using hlen
      have hok2 : ∀ pr ∈ List.zip as1x ds1x, isOkE (pr.1.inner pr.2) = true := by
        intro pr hpr
        apply hok pr
        rw [List.zip_cons_cons]
        exact List.mem_cons_of_mem _ hpr
      have hrec := ih as1x hlen2 hok2 ds2 as2
      simp [pack_private, hb, hrec]

/-- C8 witness: the second of three pairs fails; the error is returned and
the third pair is irrelevant. -/
theorem pack_private_short_circuit_witness :
    pack_private
      [PackType.UnsignedShort none, PackType.SignedChar none,
        PackType.NullByte none]
      [argOk, argFail, argOk] =
      Except.error PackError.InvalidFormatCharacter := by
  have h := pack_private_short_circuit [PackType.UnsignedShort none] [argOk]
    (PackType.SignedChar none) argFail PackError.InvalidFormatCharacter rfl
    (by
      intro pr hpr
      simp [List.zip] at hpr
      rw [hpr]
      rfl)
    rfl [PackType.NullByte none] [argOk]
  simpa using h

end RustPack

namespace RustPack

/-- `tokenStep` at a letter position: parse the token slice. -/
theorem tokenStep_pos (t : List Char) (start endIdx : Nat)
    (acc : List PackType)
    (h : isAsciiAlphabetic (t.getD start ' ') = true) :
    tokenStep t start endIdx acc =
      match PackType.try_from (sliceChars t start endIdx) with
      | Except.ok p => Except.ok (start, p :: acc)
      | Except.error e => Except.error e := by
  unfold tokenStep
  rw [h]
  simp

/-- `tokenStep` at a non-letter position: leave the cursors unchanged. -/
theorem tokenStep_neg (t : List Char) (start endIdx : Nat)
    (acc : List PackType)
    (h : isAsciiAlphabetic (t.getD start ' ') = false) :
    tokenStep t start endIdx acc = Except.ok (endIdx, acc) := by
  unfold tokenStep
  rw [h]
  simp

/-- A backward scan over positions holding no ASCII letter finds no token
and returns the already-collected descriptors. -/
theorem tokenScan_no_letters (t : List Char) :
    ∀ (start endIdx : Nat) (acc : List PackType),
      (∀ i, i ≤ start → isAsciiAlphabetic (t.getD i ' ') = false) →
      tokenScan t start endIdx acc = Except.ok acc := by
  intro start
  induction start with
  | zero =>
    intro endIdx acc h
    simp only [tokenScan]
    rw [tokenStep_neg _ _ _ _ (h 0 (Nat.le_refl 0))]
  | succ s ih =>
    intro endIdx acc h
    simp only [tokenScan]
    rw [tokenStep_neg _ _ _ _ (h (s + 1) (Nat.le_refl _))]
    exact ih endIdx acc (fun i hi => h i (Nat.le_trans hi (Nat.le_succ s)))

/-- Scanning `dgs ++ s` from a position `i` inside `s` behaves exactly like
scanning `s` from `i`, when `dgs` is a non-empty run of ASCII digits: the
scan never starts a token inside `dgs`, so the digit prefix is dropped. -/
theorem tokenScan_shift (dgs s : List Char) (hne : dgs ≠ [])
    (hdig : ∀ c ∈ dgs, isAsciiDigit c = true) :
    ∀ (i endIdx : Nat) (acc : List PackType),
      tokenScan (dgs ++ s) (dgs.length + i) (dgs.length + endIdx) acc =
        tokenScan s i endIdx acc := by
  have hnolet : ∀ j, j < dgs.length →
      isAsciiAlphabetic ((dgs ++ s).getD j ' ') = false := by
    intro j hj
    rw [List.getD_append _ _ _ j hj, List.getD_eq_getElem dgs ' ' hj]
    exact not_alphabetic_of_digit _ (hdig _ (List.getElem_mem hj))
  have hget : ∀ i : Nat,
      (dgs ++ s).getD (dgs.length + i) ' ' = s.getD i ' ' := by
    intro i
    rw [List.getD_append_right _ _ _ _ (Nat.le_add_right _ _)]
    congr 1
    omega
  have hslice : ∀ i e : Nat,
      sliceChars (dgs ++ s) (dgs.length + i) (dgs.length + e) =
        sliceChars s i e := by
    intro i e
    unfold sliceChars
    rw [List.drop_append]
    congr 1
    omega
  obtain ⟨k, hk⟩ : ∃ k, dgs.length = k + 1 := by
    cases dgs with
    | nil => exact absurd rfl hne
    | cons c cs => exact ⟨cs.length, by simp⟩
  have hklt : ∀ j, j ≤ k →
      isAsciiAlphabetic ((dgs ++ s).getD j ' ') = false := by
    intro j hj
    exact hnolet j (by omega)
  intro i
  induction i with
  | zero =>
    intro endIdx acc
    have hg := hget 0
    have hsl := hslice 0 endIdx
    rw [Nat.add_zero] at hg
    rw [Nat.add_zero] at hsl
    rw [Nat.add_zero, hk]
    rw [hk] at hg hsl
    simp only [tokenScan]
    cases halpha : isAsciiAlphabetic (s.getD 0 ' ') with
    | false =>
      rw [tokenStep_neg _ _ _ _ (by rw [hg]; exact halpha),
        tokenStep_neg _ _ _ _ halpha]
      exact tokenScan_no_letters _ _ _ _ hklt
    | true =>
      rw [tokenStep_pos _ _ _ _ (by rw [hg]; exact halpha),
        tokenStep_pos _ _ _ _ halpha, hsl]
      cases htf : PackType.try_from (sliceChars s 0 endIdx) with
      | error er => rfl
      | ok p => exact tokenScan_no_letters _ _ _ _ hklt
  | succ j ih =>
    intro endIdx acc
    have harith : dgs.length + (j + 1) = (dgs.length + j) + 1 := by omega
    have hg := hget (j + 1)
    have hsl := hslice (j + 1) endIdx
    rw [harith] at hg hsl
    rw [harith]
    simp only [tokenScan]
    cases halpha : isAsciiAlphabetic (s.getD (j + 1) ' ') with
    | false =>
      rw [tokenStep_neg _ _ _ _ (by rw [hg]; exact halpha),
        tokenStep_neg _ _ _ _ halpha]
      exact ih endIdx acc
    | true =>
      rw [tokenStep_pos _ _ _ _ (by rw [hg]; exact halpha),
        tokenStep_pos _ _ _ _ halpha, hsl]
      cases htf : PackType.try_from (sliceChars s (j + 1) endIdx) with
      | error er => rfl
      | ok p =>
        have hrec := ih (j + 1) (p :: acc)
        rw [harith] at hrec
        exact hrec

/-- C10: leading digit characters of the post-strip template that no letter
precedes are dropped without a descriptor and without an error: scanning a
non-empty all-digit run followed by anything equals scanning the remainder
alone (and yields no descriptor at all when nothing follows); in
particular, `pack` on the all-digit template `"123"` with no arguments
returns the empty buffer. -/
theorem pack_leading_orphan_digits :
    (∀ dgs s : List Char, dgs ≠ [] →
      (∀ c ∈ dgs, isAsciiDigit c = true) →
      parseStripped (dgs ++ s) =
        if s = [] then Except.ok [] else parseStripped s) ∧
    pack ['1', '2', '3'] [] = some (Except.ok []) := by
  constructor
  · intro dgs s hne hdig
    by_cases hs : s = []
    · subst hs
      rw [if_pos rfl, List.append_nil]
      unfold parseStripped
      apply tokenScan_no_letters
      intro i hi
      have hlen0 : dgs.length ≠ 0 := by
        intro h0
        exact hne (List.length_eq_zero.mp h0)
      have hilt : i < dgs.length := by omega
      rw [List.getD_eq_getElem dgs ' ' hilt]
      exact not_alphabetic_of_digit _ (hdig _ (List.getElem_mem hilt))
    · rw [if_neg hs]
      have hslen : s.length ≠ 0 := by
        intro h0
        exact hs (List.length_eq_zero.mp h0)
      unfold parseStripped
      have h1 : (dgs ++ s).length - 1 = dgs.length + (s.length - 1) := by
        rw [List.length_append]
        omega
      have h2 : (dgs ++ s).length = dgs.length + s.length :=
        List.length_append _ _
      rw [h1, h2]
      exact tokenScan_shift dgs s hne hdig (s.length - 1) s.length []
  · rfl

/-- C10 witness at a concrete input: the orphan digit of `"1a"` is dropped,
leaving exactly the scan of `"a"`. -/
theorem pack_leading_orphan_digits_witness :
    parseStripped ['1', 'a'] = parseStripped ['a'] := by
  have h := pack_leading_orphan_digits.1 ['1'] ['a'] (by decide) (by decide)
  simpa using h

end RustPack
